import Mathlib

/-!
Verification of the frame-diffing terminal renderer and phrase/beat-timing
model of the spotifydj dashboard (src/spotifydj.ts).

Modelling conventions:
* JavaScript numbers are modelled as exact rationals (ℚ); the floating-point
  rounding of IEEE doubles is outside the model.
* `Date.now()` is modelled as an explicit `now : ℚ` parameter (the spec calls
  this the injected clock).
* The JavaScript remainder operator `%` truncates toward zero; it is modelled
  by `jsMod` below.
* `process.stdout.rows`/`columns` are modelled as explicit natural-number
  parameters; writes to `process.stdout` are modelled as the `String` value
  that would be written.
-/

/-- Truncation toward zero of a rational, matching how JavaScript computes
the quotient used by the `%` operator. -/
def ratTrunc (q : ℚ) : ℤ := if 0 ≤ q then ⌊q⌋ else ⌈q⌉

/-- The JavaScript remainder `a % n` (truncated division remainder: the
result carries the sign of the dividend `a`). -/
def jsMod (a n : ℚ) : ℚ := a - n * ratTrunc (a / n)

/-- Result record of `PhraseCounter.calculate` (src/types, `PhraseInfo`).
`phraseCount` is produced by `Math.floor(...) + 1` and is an integer. -/
structure PhraseInfo where
  beatsRemaining : ℚ
  timeRemainingSeconds : ℚ
  phraseCount : ℤ
deriving DecidableEq

namespace PhraseCounter

/-- Local variable `safeTimestamp` of `calculate` (src/spotifydj.ts line 62):
`timestamp > 0 ? timestamp : now`. -/
def safeTimestampOf (now timestamp : ℚ) : ℚ :=
  if timestamp > 0 then timestamp else now

/-- Local variable `elapsed` of `calculate` (line 64):
`isPlaying ? now - safeTimestamp : 0`. -/
def elapsedOf (now timestamp : ℚ) (isPlaying : Bool) : ℚ :=
  if isPlaying then now - safeTimestampOf now timestamp else 0

/-- Local variable `beatDurationMs` of `calculate` (line 67): `60000 / bpm`. -/
def beatDurationMs (bpm : ℚ) : ℚ := 60000 / bpm

/-- Local variable `totalBeats` of `calculate` (lines 65 and 69):
`(progressMs + elapsed) / beatDurationMs`. -/
def totalBeats (now bpm progressMs timestamp : ℚ) (isPlaying : Bool) : ℚ :=
  (progressMs + elapsedOf now timestamp isPlaying) / beatDurationMs bpm

/-- The guard of line 73, `timeSignature && timeSignature !== 4`:
`undefined` and `0` are falsy, so only a defined signature that is neither
`0` nor `4` takes the sentinel branch. -/
def tsGuard : Option ℚ → Bool
  | none => false
  | some t => decide (t ≠ 0) && decide (t ≠ 4)

/-- `PhraseCounter.calculate` (src/spotifydj.ts lines 49-88), with
`Date.now()` passed in as `now`. -/
def calculate (now bpm progressMs timestamp : ℚ) (timeSignature : Option ℚ)
    (isPlaying : Bool) : PhraseInfo :=
  if bpm ≤ 0 then ⟨32, 0, 1⟩
  else if tsGuard timeSignature then ⟨0, 0, 0⟩
  else
    let positionInPhrase := jsMod (totalBeats now bpm progressMs timestamp isPlaying) 32
    let beatsRemaining := 32 - positionInPhrase
    ⟨beatsRemaining, beatsRemaining * beatDurationMs bpm / 1000,
      ⌊positionInPhrase⌋ + 1⟩

end PhraseCounter

theorem jsMod_nonneg (a n : ℚ) (hn : 0 < n) (ha : 0 ≤ a) : 0 ≤ jsMod a n := by
  unfold jsMod ratTrunc
  rw [if_pos (div_nonneg ha hn.le)]
  have h1 : ((⌊a / n⌋ : ℤ) : ℚ) ≤ a / n := Int.floor_le _
  have h2 : n * ((⌊a / n⌋ : ℤ) : ℚ) ≤ n * (a / n) :=
    mul_le_mul_of_nonneg_left h1 hn.le
  have h3 : n * (a / n) = a := by
    rw [mul_comm]; exact div_mul_cancel₀ a hn.ne'
  linarith

theorem jsMod_lt (a n : ℚ) (hn : 0 < n) : jsMod a n < n := by
  unfold jsMod ratTrunc
  by_cases hq : 0 ≤ a / n
  · rw [if_pos hq]
    have h1 : a / n < (⌊a / n⌋ : ℚ) + 1 := Int.lt_floor_add_one _
    have h2 : n * (a / n) < n * ((⌊a / n⌋ : ℚ) + 1) :=
      mul_lt_mul_of_pos_left h1 hn
    have h3 : n * (a / n) = a := by
      rw [mul_comm]; exact div_mul_cancel₀ a hn.ne'
    nlinarith
  · rw [if_neg hq]
    have h1 : a / n ≤ (⌈a / n⌉ : ℚ) := Int.le_ceil _
    have h2 : n * (a / n) ≤ n * ((⌈a / n⌉ : ℚ) : ℚ) :=
      mul_le_mul_of_nonneg_left h1 hn.le
    have h3 : n * (a / n) = a := by
      rw [mul_comm]; exact div_mul_cancel₀ a hn.ne'
    linarith

/-- C4: for every bpm ≤ 0, whatever the other arguments, `calculate` returns
exactly beatsRemaining = 32, timeRemainingSeconds = 0, phraseCount = 1. -/
theorem calculate_nonpositive_bpm (now bpm progressMs timestamp : ℚ)
    (ts : Option ℚ) (playing : Bool) (hbpm : bpm ≤ 0) :
    PhraseCounter.calculate now bpm progressMs timestamp ts playing
      = ⟨32, 0, 1⟩ := by
  unfold PhraseCounter.calculate
  rw [if_pos hbpm]

/-- Witness for C4 at bpm = 0, timeSignature = 3, playing. -/
theorem calculate_nonpositive_bpm_witness :
    (0 : ℚ) ≤ 0 ∧
    PhraseCounter.calculate 5000 0 1234 100 (some 3) true = ⟨32, 0, 1⟩ :=
  ⟨le_refl 0, calculate_nonpositive_bpm 5000 0 1234 100 (some 3) true (le_refl 0)⟩

/-- C2 counterexample: with timeSignature = 3 (≠ 4) but bpm = 0, `calculate`
returns the zero-BPM default (32, 0, 1), not the non-4/4 sentinel (0, 0, 0):
the bpm guard fires first. Moreover with bpm = 120 and timeSignature = 0
(also ≠ 4) the guard is falsy and the normal phrase result (32, 0, 1 at
position 0) is returned, again not the sentinel. -/
theorem calculate_non44_counterexample :
    PhraseCounter.calculate 0 0 0 0 (some 3) true = ⟨32, 0, 1⟩ ∧
    PhraseCounter.calculate 0 0 0 0 (some 3) true ≠ ⟨0, 0, 0⟩ ∧
    PhraseCounter.calculate 0 120 0 0 (some 0) true ≠ ⟨0, 0, 0⟩ := by
  refine ⟨by decide, by decide, ?_⟩
  norm_num [PhraseCounter.calculate, PhraseCounter.tsGuard,
    PhraseCounter.totalBeats, PhraseCounter.elapsedOf,
    PhraseCounter.safeTimestampOf, PhraseCounter.beatDurationMs, jsMod,
    ratTrunc, PhraseInfo.mk.injEq]

/-- C2 amended: for every input with bpm > 0 and a defined timeSignature that
is neither 0 nor 4, `calculate` returns exactly the sentinel (0, 0, 0). -/
theorem calculate_non44_sentinel (now bpm progressMs timestamp t : ℚ)
    (playing : Bool) (hbpm : 0 < bpm) (h0 : t ≠ 0) (h4 : t ≠ 4) :
    PhraseCounter.calculate now bpm progressMs timestamp (some t) playing
      = ⟨0, 0, 0⟩ := by
  unfold PhraseCounter.calculate
  rw [if_neg (not_le.mpr hbpm), if_pos]
  simp [PhraseCounter.tsGuard, h0, h4]

/-- Witness for C2 amended at bpm = 120, timeSignature = 3. -/
theorem calculate_non44_sentinel_witness :
    (0 : ℚ) < 120 ∧ (3 : ℚ) ≠ 0 ∧ (3 : ℚ) ≠ 4 ∧
    PhraseCounter.calculate 9000 120 2500 100 (some 3) false = ⟨0, 0, 0⟩ :=
  ⟨by decide, by decide, by decide,
    calculate_non44_sentinel 9000 120 2500 100 3 false (by decide) (by decide)
      (by decide)⟩

/-- C10: with bpm > 0, a timeSignature of 0 is treated exactly like an
undefined one (the guard tests truthiness, so 0 falls through): the result
equals the 4/4 computation and is never the non-4/4 sentinel (0, 0, 0). -/
theorem calculate_zero_time_signature (now bpm progressMs timestamp : ℚ)
    (playing : Bool) (hbpm : 0 < bpm) :
    PhraseCounter.calculate now bpm progressMs timestamp (some 0) playing
      = PhraseCounter.calculate now bpm progressMs timestamp none playing ∧
    PhraseCounter.calculate now bpm progressMs timestamp (some 0) playing
      ≠ ⟨0, 0, 0⟩ := by
  have hg : PhraseCounter.tsGuard (some 0) = false := by
    simp [PhraseCounter.tsGuard]
  constructor
  · unfold PhraseCounter.calculate
    rw [hg]
    simp [PhraseCounter.tsGuard]
  · unfold PhraseCounter.calculate
    rw [if_neg (not_le.mpr hbpm), hg]
    simp only [Bool.false_eq_true, if_false]
    intro hcontra
    have hb : (32 : ℚ) -
        jsMod (PhraseCounter.totalBeats now bpm progressMs timestamp playing) 32
        = 0 := congrArg PhraseInfo.beatsRemaining hcontra
    have hlt :
        jsMod (PhraseCounter.totalBeats now bpm progressMs timestamp playing) 32
        < 32 := jsMod_lt _ 32 (by norm_num)
    linarith

/-- Witness for C10 at bpm = 120. -/
theorem calculate_zero_time_signature_witness :
    (0 : ℚ) < 120 ∧
    (PhraseCounter.calculate 0 120 0 0 (some 0) true
        = PhraseCounter.calculate 0 120 0 0 none true ∧
      PhraseCounter.calculate 0 120 0 0 (some 0) true ≠ ⟨0, 0, 0⟩) :=
  ⟨by decide, calculate_zero_time_signature 0 120 0 0 true (by decide)⟩

/-- C3: for bpm > 0 and timeSignature undefined or 4, `calculate` returns
beatsRemaining = 32 − (totalBeats mod 32), timeRemainingSeconds =
beatsRemaining · beatDuration / 1000, phraseCount = ⌊totalBeats mod 32⌋ + 1,
with totalBeats = (progressMs + elapsed) / beatDuration; and for a
non-negative playback position, 0 ≤ beatsRemaining ≤ 32 and phraseCount ≥ 1. -/
theorem calculate_4_4 (now bpm progressMs timestamp : ℚ) (ts : Option ℚ)
    (playing : Bool) (hbpm : 0 < bpm) (hts : ts = none ∨ ts = some 4)
    (hpos : 0 ≤ progressMs + PhraseCounter.elapsedOf now timestamp playing) :
    (PhraseCounter.calculate now bpm progressMs timestamp ts playing).beatsRemaining
        = 32 - jsMod (PhraseCounter.totalBeats now bpm progressMs timestamp playing) 32
    ∧ (PhraseCounter.calculate now bpm progressMs timestamp ts playing).timeRemainingSeconds
        = (PhraseCounter.calculate now bpm progressMs timestamp ts playing).beatsRemaining
            * PhraseCounter.beatDurationMs bpm / 1000
    ∧ (PhraseCounter.calculate now bpm progressMs timestamp ts playing).phraseCount
        = ⌊jsMod (PhraseCounter.totalBeats now bpm progressMs timestamp playing) 32⌋ + 1
    ∧ 0 ≤ (PhraseCounter.calculate now bpm progressMs timestamp ts playing).beatsRemaining
    ∧ (PhraseCounter.calculate now bpm progressMs timestamp ts playing).beatsRemaining ≤ 32
    ∧ 1 ≤ (PhraseCounter.calculate now bpm progressMs timestamp ts playing).phraseCount := by
  have hg : PhraseCounter.tsGuard ts = false := by
    rcases hts with h | h <;> subst h <;> simp [PhraseCounter.tsGuard]
  have hbd : 0 < PhraseCounter.beatDurationMs bpm := by
    unfold PhraseCounter.beatDurationMs
    exact div_pos (by norm_num) hbpm
  have htb : 0 ≤ PhraseCounter.totalBeats now bpm progressMs timestamp playing := by
    unfold PhraseCounter.totalBeats
    exact div_nonneg hpos hbd.le
  have hJ0 : 0 ≤ jsMod (PhraseCounter.totalBeats now bpm progressMs timestamp playing) 32 :=
    jsMod_nonneg _ 32 (by norm_num) htb
  have hJlt : jsMod (PhraseCounter.totalBeats now bpm progressMs timestamp playing) 32 < 32 :=
    jsMod_lt _ 32 (by norm_num)
  have hfl : (0 : ℤ) ≤ ⌊jsMod (PhraseCounter.totalBeats now bpm progressMs timestamp playing) 32⌋ :=
    Int.floor_nonneg.mpr hJ0
  have hcalc : PhraseCounter.calculate now bpm progressMs timestamp ts playing
      = ⟨32 - jsMod (PhraseCounter.totalBeats now bpm progressMs timestamp playing) 32,
          (32 - jsMod (PhraseCounter.totalBeats now bpm progressMs timestamp playing) 32)
            * PhraseCounter.beatDurationMs bpm / 1000,
          ⌊jsMod (PhraseCounter.totalBeats now bpm progressMs timestamp playing) 32⌋ + 1⟩ := by
    unfold PhraseCounter.calculate
    rw [if_neg (not_le.mpr hbpm), hg]
    rfl
  rw [hcalc]
  refine ⟨rfl, rfl, rfl, ?_, ?_, ?_⟩
  · show (0 : ℚ) ≤ 32 - jsMod (PhraseCounter.totalBeats now bpm progressMs timestamp playing) 32
    linarith
  · show (32 : ℚ) - jsMod (PhraseCounter.totalBeats now bpm progressMs timestamp playing) 32 ≤ 32
    linarith
  · show (1 : ℤ) ≤ ⌊jsMod (PhraseCounter.totalBeats now bpm progressMs timestamp playing) 32⌋ + 1
    omega

/-- Witness for C3 at now = 0, bpm = 120, progressMs = 1000, timestamp = 0,
timeSignature undefined, playing. -/
theorem calculate_4_4_witness :
    (0 : ℚ) < 120 ∧
    ((none : Option ℚ) = none ∨ (none : Option ℚ) = some 4) ∧
    (0 : ℚ) ≤ 1000 + PhraseCounter.elapsedOf 0 0 true ∧
    ((PhraseCounter.calculate 0 120 1000 0 none true).beatsRemaining
        = 32 - jsMod (PhraseCounter.totalBeats 0 120 1000 0 true) 32
    ∧ (PhraseCounter.calculate 0 120 1000 0 none true).timeRemainingSeconds
        = (PhraseCounter.calculate 0 120 1000 0 none true).beatsRemaining
            * PhraseCounter.beatDurationMs 120 / 1000
    ∧ (PhraseCounter.calculate 0 120 1000 0 none true).phraseCount
        = ⌊jsMod (PhraseCounter.totalBeats 0 120 1000 0 true) 32⌋ + 1
    ∧ 0 ≤ (PhraseCounter.calculate 0 120 1000 0 none true).beatsRemaining
    ∧ (PhraseCounter.calculate 0 120 1000 0 none true).beatsRemaining ≤ 32
    ∧ 1 ≤ (PhraseCounter.calculate 0 120 1000 0 none true).phraseCount) :=
  ⟨by norm_num, Or.inl rfl,
    by norm_num [PhraseCounter.elapsedOf, PhraseCounter.safeTimestampOf],
    calculate_4_4 0 120 1000 0 none true (by norm_num) (Or.inl rfl)
      (by norm_num [PhraseCounter.elapsedOf, PhraseCounter.safeTimestampOf])⟩

/-- Constant `CLEAR_TO_END` (src/spotifydj.ts line 106): clear to end of
line. -/
def CLEAR_TO_END : String := "\x1b[0K"

/-- `TerminalRenderer` (src/spotifydj.ts line 315): its only state is the
`previousFrame` buffer, initialised to the empty list. -/
structure TerminalRenderer where
  previousFrame : List String
deriving DecidableEq

/-- The field initialiser `previousFrame: string[] = []` (line 316). -/
def TerminalRenderer.init : TerminalRenderer := ⟨[]⟩

/-- `TerminalRenderer.resetFrameCache` (lines 318-320). -/
def TerminalRenderer.resetFrameCache (_r : TerminalRenderer) : TerminalRenderer :=
  ⟨[]⟩

/-- The per-row diff loop of `writeFrame` (lines 327-339): for each index
below `maxRows = max(clippedLines.length, previousFrame.length)`, compare
`clippedLines[i] ?? ''` with `previousFrame[i] ?? ''` and record the row
index and the new content when they differ. -/
def diffWrites (clippedLines previousFrame : List String) : List (ℕ × String) :=
  (List.range (max clippedLines.length previousFrame.length)).filterMap
    fun i =>
      if clippedLines.getD i "" = previousFrame.getD i "" then none
      else some (i, clippedLines.getD i "")

/-- The escape sequence pushed for a differing row i (line 337):
move to row i+1 column 1, write the content, clear to end of line. -/
def rowWriteString (i : ℕ) (next : String) : String :=
  "\x1b[" ++ toString (i + 1) ++ ";1H" ++ next ++ CLEAR_TO_END

/-- `TerminalRenderer.writeFrame` (src/spotifydj.ts lines 322-346).
`terminalHeight` stands for `process.stdout.rows || 24`. The returned
string is what is written to `process.stdout` by the single flush: the
buffer always begins with the cursor-home sequence pushed on line 331, so
`buffer.length > 0` always holds and the write always happens. -/
def TerminalRenderer.writeFrame (r : TerminalRenderer) (terminalHeight : ℕ)
    (lines : List String) : TerminalRenderer × String :=
  let clippedLines := lines.take terminalHeight
  let buffer := "\x1b[H" ::
    (diffWrites clippedLines r.previousFrame).map fun w => rowWriteString w.1 w.2
  (⟨clippedLines⟩, String.join buffer)

theorem writeFrame_previousFrame (r : TerminalRenderer) (terminalHeight : ℕ)
    (lines : List String) :
    ((r.writeFrame terminalHeight lines).1).previousFrame
      = lines.take terminalHeight := rfl

theorem diffWrites_self (l : List String) : diffWrites l l = [] := by
  unfold diffWrites
  rw [List.filterMap_eq_nil_iff]
  intro i _
  simp

theorem mem_diffWrites {c p : List String} {i : ℕ} {s : String} :
    (i, s) ∈ diffWrites c p ↔
      i < max c.length p.length ∧ c.getD i "" ≠ p.getD i ""
        ∧ s = c.getD i "" := by
  unfold diffWrites
  rw [List.mem_filterMap]
  constructor
  · rintro ⟨a, ha, hfa⟩
    rw [List.mem_range] at ha
    by_cases hEq : c.getD a "" = p.getD a ""
    · rw [if_pos hEq] at hfa
      exact absurd hfa (by simp)
    · rw [if_neg hEq] at hfa
      obtain ⟨hai, hs⟩ := Prod.mk.injEq .. ▸ Option.some.injEq .. ▸ hfa
      subst hai
      exact ⟨ha, hEq, hs.symm⟩
  · rintro ⟨hi, hne, hs⟩
    exact ⟨i, List.mem_range.mpr hi, by rw [if_neg hne, hs]⟩

/-- C1 counterexample: writing the same one-row frame twice, the second
`writeFrame` call still writes the 3-byte cursor-home sequence ESC [ H —
not zero bytes — because the home sequence is pushed into the buffer
unconditionally, so the buffer is never empty. -/
theorem writeFrame_second_call_nonempty :
    (((TerminalRenderer.init.writeFrame 24 ["a"]).1).writeFrame 24 ["a"]).2
        = "\x1b[H" ∧
    (((TerminalRenderer.init.writeFrame 24 ["a"]).1).writeFrame 24 ["a"]).2
        ≠ "" := by
  refine ⟨?_, ?_⟩ <;> decide

/-- C1 amended: calling `writeFrame` twice with identical rows and geometry
emits no per-row write on the second call; the second call writes exactly
the cursor-home sequence ESC [ H and nothing else. -/
theorem writeFrame_second_call_cursor_home_only (r : TerminalRenderer)
    (terminalHeight : ℕ) (lines : List String) :
    (((r.writeFrame terminalHeight lines).1).writeFrame terminalHeight lines).2
      = "\x1b[H" := by
  have h1 : ((r.writeFrame terminalHeight lines).1).previousFrame
      = lines.take terminalHeight := rfl
  show String.join ("\x1b[H" ::
      (diffWrites (lines.take terminalHeight)
        ((r.writeFrame terminalHeight lines).1).previousFrame).map
        fun w => rowWriteString w.1 w.2) = "\x1b[H"
  rw [h1, diffWrites_self]
  rfl

/-- C5: after writing frame A then frame B (both already within terminal
height), a third `writeFrame` call with A emits a per-row write exactly at
the indices where A and B differ (shorter frame padded with empty rows),
writing A's row there, and emits nothing for indices where they agree. -/
theorem writeFrame_round_trip (terminalHeight : ℕ) (A B : List String)
    (r0 : TerminalRenderer) (hA : A.length ≤ terminalHeight)
    (hB : B.length ≤ terminalHeight) :
    ∀ i s, (i, s) ∈ diffWrites (A.take terminalHeight)
        ((((r0.writeFrame terminalHeight A).1).writeFrame terminalHeight B).1).previousFrame
      ↔ i < max A.length B.length ∧ A.getD i "" ≠ B.getD i ""
          ∧ s = A.getD i "" := by
  have hA2 : A.take terminalHeight = A := List.take_of_length_le hA
  have hB2 : ((((r0.writeFrame terminalHeight A).1).writeFrame terminalHeight B).1).previousFrame
      = B := by
    rw [writeFrame_previousFrame]; exact List.take_of_length_le hB
  intro i s
  rw [hB2, hA2]
  exact mem_diffWrites

/-- Witness for C5 with A = [x, b], B = [x, c] at height 3: the third call
rewrites exactly row index 1. -/
theorem writeFrame_round_trip_witness :
    (["x", "b"] : List String).length ≤ 3 ∧
    (["x", "c"] : List String).length ≤ 3 ∧
    (∀ i s, (i, s) ∈ diffWrites ((["x", "b"] : List String).take 3)
        ((((TerminalRenderer.init.writeFrame 3 ["x", "b"]).1).writeFrame 3
          ["x", "c"]).1).previousFrame
      ↔ i < max (["x", "b"] : List String).length (["x", "c"] : List String).length
          ∧ (["x", "b"] : List String).getD i "" ≠ (["x", "c"] : List String).getD i ""
          ∧ s = (["x", "b"] : List String).getD i "") :=
  ⟨by decide, by decide,
    writeFrame_round_trip 3 ["x", "b"] ["x", "c"] TerminalRenderer.init
      (by decide) (by decide)⟩

/-- C6: `writeFrame` clips the incoming rows to terminal height before
diffing, stores at most terminal-height rows as the new baseline, and —
provided the stored baseline is within terminal height, as it always is
under a fixed geometry starting from the empty baseline — every emitted
cursor-positioning sequence targets a row index (i+1, one-based) no greater
than the terminal height. -/
theorem writeFrame_respects_height (r : TerminalRenderer) (terminalHeight : ℕ)
    (lines : List String) (hr : r.previousFrame.length ≤ terminalHeight) :
    (lines.take terminalHeight).length ≤ terminalHeight
    ∧ ((r.writeFrame terminalHeight lines).1).previousFrame.length ≤ terminalHeight
    ∧ ∀ w ∈ diffWrites (lines.take terminalHeight) r.previousFrame,
        w.1 + 1 ≤ terminalHeight := by
  have htake : (lines.take terminalHeight).length ≤ terminalHeight := by
    rw [List.length_take]; exact min_le_left _ _
  refine ⟨htake, ?_, ?_⟩
  · rw [writeFrame_previousFrame]; exact htake
  · rintro ⟨i, s⟩ hw
    have hmem := mem_diffWrites.mp hw
    have hmax : max (lines.take terminalHeight).length r.previousFrame.length
        ≤ terminalHeight := max_le htake hr
    have hi : i < terminalHeight := lt_of_lt_of_le hmem.1 hmax
    omega

/-- Witness for C6 on the initial renderer at height 24 with one row. -/
theorem writeFrame_respects_height_witness :
    TerminalRenderer.init.previousFrame.length ≤ 24 ∧
    (((["a"] : List String).take 24).length ≤ 24
    ∧ ((TerminalRenderer.init.writeFrame 24 ["a"]).1).previousFrame.length ≤ 24
    ∧ ∀ w ∈ diffWrites ((["a"] : List String).take 24)
        TerminalRenderer.init.previousFrame, w.1 + 1 ≤ 24) :=
  ⟨by decide,
    writeFrame_respects_height TerminalRenderer.init 24 ["a"] (by decide)⟩

/-- The pagination / scrolling step of `renderTrainBoard`
(src/spotifydj.ts lines 658-663 and the return value on line 710),
parametrised by the built recommendation row list `displayLines` (lines
552-652) and the visible window `maxLines = availableForRecs` (line 655,
a non-negative count). `scrollOffset` is the raw caller-supplied offset and
may be negative. Returns (visibleLines, clampedOffset, maxScroll). -/
def renderTrainBoardPagination (displayLines : List String) (maxLines : ℕ)
    (scrollOffset : ℤ) : List String × ℤ × ℤ :=
  let totalLines : ℤ := displayLines.length
  let so1 : ℤ := if scrollOffset < 0 then 0 else scrollOffset
  let maxScroll : ℤ := max 0 (totalLines - maxLines)
  let so2 : ℤ := if so1 > maxScroll then maxScroll else so1
  let visibleLines := (displayLines.drop so2.toNat).take maxLines
  (visibleLines, so2, max 0 (totalLines - maxLines))

/-- C7: for every row list, window size, and scroll offset (including
negative and over-large ones), `renderTrainBoard` returns
maxScroll = max(0, totalRows − window), clamps the offset into
[0, maxScroll], and renders exactly the slice
rows[clampedOffset : clampedOffset + window]. -/
theorem renderTrainBoardPagination_spec (displayLines : List String)
    (maxLines : ℕ) (scrollOffset : ℤ) :
    (renderTrainBoardPagination displayLines maxLines scrollOffset).2.2
        = max 0 ((displayLines.length : ℤ) - maxLines)
    ∧ (renderTrainBoardPagination displayLines maxLines scrollOffset).2.1
        = max 0 (min scrollOffset (max 0 ((displayLines.length : ℤ) - maxLines)))
    ∧ 0 ≤ (renderTrainBoardPagination displayLines maxLines scrollOffset).2.1
    ∧ (renderTrainBoardPagination displayLines maxLines scrollOffset).2.1
        ≤ max 0 ((displayLines.length : ℤ) - maxLines)
    ∧ (renderTrainBoardPagination displayLines maxLines scrollOffset).1
        = (displayLines.drop
            (renderTrainBoardPagination displayLines maxLines scrollOffset).2.1.toNat).take
            maxLines := by
  simp only [renderTrainBoardPagination]
  split_ifs with h1 h2 h2 <;>
    refine ⟨trivial, by omega, by omega, by omega, trivial⟩

/-- The progress-bar percentage of `renderTrainBoard`
(src/spotifydj.ts lines 449-454): 0 when duration_ms ≤ 0, otherwise
currentMs / duration_ms clamped to [0, 1]. -/
def progressPercent (currentMs duration_ms : ℚ) : ℚ :=
  if duration_ms ≤ 0 then 0 else min 1 (max 0 (currentMs / duration_ms))

/-- The filled-block count of the progress bar
(src/spotifydj.ts lines 458-469): barWidth at percent ≥ 1, 0 at
percent ≤ 0, otherwise round(barWidth · percent) capped at barWidth. -/
def filledLen (barWidth : ℕ) (currentMs duration_ms : ℚ) : ℤ :=
  if 1 ≤ progressPercent currentMs duration_ms then barWidth
  else if progressPercent currentMs duration_ms ≤ 0 then 0
  else min (round ((barWidth : ℚ) * progressPercent currentMs duration_ms)) barWidth

/-- C8: for every barWidth ≥ 1, the percent is clamped to [0, 1] (and is 0
when duration_ms ≤ 0); the filled-block count is 0 at percent 0, barWidth at
percent 1, round(barWidth · percent) for 0 < percent < 1, and never exceeds
barWidth. -/
theorem filledLen_spec (barWidth : ℕ) (currentMs duration_ms : ℚ)
    (_hbw : 1 ≤ barWidth) :
    (duration_ms ≤ 0 → progressPercent currentMs duration_ms = 0)
    ∧ 0 ≤ progressPercent currentMs duration_ms
    ∧ progressPercent currentMs duration_ms ≤ 1
    ∧ (progressPercent currentMs duration_ms = 0 →
        filledLen barWidth currentMs duration_ms = 0)
    ∧ (progressPercent currentMs duration_ms = 1 →
        filledLen barWidth currentMs duration_ms = barWidth)
    ∧ (0 < progressPercent currentMs duration_ms →
        progressPercent currentMs duration_ms < 1 →
        filledLen barWidth currentMs duration_ms
          = round ((barWidth : ℚ) * progressPercent currentMs duration_ms))
    ∧ filledLen barWidth currentMs duration_ms ≤ barWidth := by
  have hp0 : 0 ≤ progressPercent currentMs duration_ms := by
    unfold progressPercent
    split_ifs with h
    · exact le_refl 0
    · exact le_min (by norm_num) (le_max_left 0 _)
  have hp1 : progressPercent currentMs duration_ms ≤ 1 := by
    unfold progressPercent
    split_ifs with h
    · norm_num
    · exact min_le_left 1 _
  refine ⟨?_, hp0, hp1, ?_, ?_, ?_, ?_⟩
  · intro h
    unfold progressPercent
    rw [if_pos h]
  · intro h
    unfold filledLen
    rw [if_neg (by rw [h]; norm_num), if_pos (le_of_eq h)]
  · intro h
    unfold filledLen
    rw [if_pos (le_of_eq h.symm)]
  · intro hlo hhi
    unfold filledLen
    rw [if_neg (not_le.mpr hhi), if_neg (not_le.mpr hlo)]
    have hble : (barWidth : ℚ) * progressPercent currentMs duration_ms ≤ barWidth := by
      nlinarith [Nat.cast_nonneg (α := ℚ) barWidth]
    have hround : round ((barWidth : ℚ) * progressPercent currentMs duration_ms)
        ≤ (barWidth : ℤ) := by
      rw [round_eq]
      have hstep : (barWidth : ℚ) * progressPercent currentMs duration_ms + 1 / 2
          ≤ (barWidth : ℚ) + 1 / 2 := by linarith
      have hfl := Int.floor_le_floor hstep
      have hcast : ((barWidth : ℚ) + 1 / 2) = ((1 : ℚ) / 2 + (barWidth : ℤ)) := by
        push_cast; ring
      rw [hcast, Int.floor_add_int] at hfl
      have hhalf : ⌊(1 : ℚ) / 2⌋ = 0 := by norm_num
      omega
    exact min_eq_left hround
  · unfold filledLen
    split_ifs with h1 h2
    · exact le_refl _
    · exact Int.ofNat_nonneg barWidth
    · exact min_le_right _ _

/-- Witness for C8 at barWidth = 40, currentMs = 100, duration_ms = 200
(percent 1/2). -/
theorem filledLen_spec_witness :
    1 ≤ 40 ∧
    ((200 : ℚ) ≤ 0 → progressPercent 100 200 = 0)
    ∧ 0 ≤ progressPercent 100 200
    ∧ progressPercent 100 200 ≤ 1
    ∧ (progressPercent 100 200 = 0 → filledLen 40 100 200 = 0)
    ∧ (progressPercent 100 200 = 1 → filledLen 40 100 200 = 40)
    ∧ (0 < progressPercent 100 200 → progressPercent 100 200 < 1 →
        filledLen 40 100 200 = round ((40 : ℚ) * progressPercent 100 200))
    ∧ filledLen 40 100 200 ≤ 40 := by
  have h := filledLen_spec 40 100 200 (by norm_num)
  exact ⟨by norm_num, h.1, h.2.1, h.2.2.1, h.2.2.2.1, h.2.2.2.2.1,
    h.2.2.2.2.2.1, h.2.2.2.2.2.2⟩

/-- The playback-position computation of `renderTrainBoard`
(src/spotifydj.ts lines 439-443): `elapsed = now - timestamp`,
`additionalProgressMs = isPlaying ? elapsed : 0`,
`currentMs = min(progress_ms + additionalProgressMs, duration_ms)`.
Note there is no clamp below 0. -/
def currentMsOf (now progress_ms duration_ms timestamp : ℚ)
    (isPlaying : Bool) : ℚ :=
  let elapsed := now - timestamp
  let additionalProgressMs := if isPlaying then elapsed else 0
  min (progress_ms + additionalProgressMs) duration_ms

/-- C9 counterexample: with timestamp = 2000 in the future of now = 1000,
progress_ms = 0, duration_ms = 200000 and playing, the clamped position is
-1000 < 0: the claimed invariant 0 ≤ currentMs fails for arbitrary inputs
because the code has no lower clamp. -/
theorem currentMsOf_counterexample :
    currentMsOf 1000 0 200000 2000 true < 0 := by
  norm_num [currentMsOf]

/-- C9 amended: currentMs never exceeds duration_ms; wall-clock elapsed time
is added only while playing (when paused the position is
min(progress_ms, duration_ms)); and 0 ≤ currentMs holds under the valid-input
conditions progress_ms ≥ 0, duration_ms ≥ 0, and timestamp ≤ now when
playing. -/
theorem currentMsOf_spec (now progress_ms duration_ms timestamp : ℚ)
    (playing : Bool) (hp : 0 ≤ progress_ms) (hd : 0 ≤ duration_ms)
    (ht : playing = true → timestamp ≤ now) :
    currentMsOf now progress_ms duration_ms timestamp playing ≤ duration_ms
    ∧ 0 ≤ currentMsOf now progress_ms duration_ms timestamp playing
    ∧ (playing = false →
        currentMsOf now progress_ms duration_ms timestamp playing
          = min progress_ms duration_ms) := by
  unfold currentMsOf
  cases playing with
  | false =>
      simp only [Bool.false_eq_true, if_false, add_zero]
      exact ⟨min_le_right _ _, le_min hp hd, fun _ => trivial⟩
  | true =>
      have hts : timestamp ≤ now := ht rfl
      simp only [if_true]
      refine ⟨min_le_right _ _, le_min (by linarith) hd, fun hcontra => ?_⟩
      exact absurd hcontra (by simp)

/-- Witness for C9 amended at now = 1000, progress_ms = 500,
duration_ms = 200000, timestamp = 400, playing. -/
theorem currentMsOf_spec_witness :
    (0 : ℚ) ≤ 500 ∧ (0 : ℚ) ≤ 200000 ∧ (true = true → (400 : ℚ) ≤ 1000) ∧
    (currentMsOf 1000 500 200000 400 true ≤ 200000
    ∧ 0 ≤ currentMsOf 1000 500 200000 400 true
    ∧ (true = false →
        currentMsOf 1000 500 200000 400 true = min (500 : ℚ) 200000)) :=
  ⟨by norm_num, by norm_num, fun _ => by norm_num,
    currentMsOf_spec 1000 500 200000 400 true (by norm_num) (by norm_num)
      (fun _ => by norm_num)⟩
